import Mathlib

/-!
Shallow embedding of `src/customizable-layout/customizable-layout.component.ts`
(the layout state engine of `sgs-ng-customizable-layout`).

Conventions of the embedding:
* TypeScript arrays become `List`, objects become structures, `undefined`-able
  values become `Option`.
* JavaScript runtime exceptions (a `TypeError` from a property access on
  `undefined`, a `SyntaxError` from `JSON.parse` on malformed input) are made
  explicit with `Except JsErr`.
* `JSON.parse(JSON.stringify(x))` ("createCopy") on the plain record types used
  here is the identity, so deep copies are the identity function on values.
* The external Angular CDK helpers `moveItemInArray` / `transferArrayItem` and
  the lodash helpers `groupBy` / `findKey` are embedded from their documented
  semantics (clamp-and-splice for the CDK, insertion-ordered grouping for
  lodash).
-/

namespace SgsLayout

/-- A JavaScript runtime error escaping an operation. -/
inductive JsErr where
  /-- property access on `undefined` -/
  | typeError : JsErr
  /-- `JSON.parse` on malformed input -/
  | syntaxError : JsErr
deriving DecidableEq

/-- `LayoutElement`: a reference to one placeable component. -/
structure LayoutElement where
  componentName : String
deriving DecidableEq

/-- `LayoutList`: one named column of the layout. -/
structure LayoutList where
  containerName : String
  width : String
  connectedTo : List String
  items : List LayoutElement
deriving DecidableEq

/-- `CustomizableLayout`: one breakpoint's arrangement. -/
structure CustomizableLayout where
  lists : List LayoutList
deriving DecidableEq

/-- `LayoutType` enum. -/
inductive LayoutType where
  | Mobile | Tablet | Desktop
deriving DecidableEq

/-- `CustomizableLayoutConfig`: the top-level persisted unit.  The three
breakpoint variants may each be absent (`config[layoutType]` is typed
`CustomizableLayout | undefined` in the source). -/
structure CustomizableLayoutConfig where
  name : String
  version : Int
  mobile : Option CustomizableLayout
  tablet : Option CustomizableLayout
  desktop : Option CustomizableLayout
deriving DecidableEq

/-- `createCopy(obj) = JSON.parse(JSON.stringify(obj))`: on the plain record
values modelled here the JSON round trip is the identity. -/
def createCopy (c : CustomizableLayoutConfig) : CustomizableLayoutConfig := c

/-- `createCopy` applied to a single breakpoint's layout (as in `resetPressed`). -/
def createCopyLayout (l : CustomizableLayout) : CustomizableLayout := l

/-- The breakpoint selection in `ngOnInit`:
`width <= tabletBreakpoint ? Mobile : Tablet` (the `TODO` desktop tier is
never produced). -/
def selectLayoutType (tabletBreakpoint width : Int) : LayoutType :=
  if width ≤ tabletBreakpoint then LayoutType.Mobile else LayoutType.Tablet

/-- `getConnectedToString(self)`: container names of `this.currentLayout`
other than `self`.  The layout read is always the component's *current*
layout state, so it is an explicit first argument here. -/
def getConnectedToString (current : CustomizableLayout) (self : String) : List String :=
  (current.lists.map (·.containerName)).filter (fun cn => cn != self)

/-- `getConnectedLists(layout)`: rebuild every list's `connectedTo`.  The
names are taken from `this.currentLayout` (argument `current`), not from the
`layout` argument itself. -/
def getConnectedLists (current layout : CustomizableLayout) : CustomizableLayout :=
  { layout with
    lists := layout.lists.map fun l =>
      { l with connectedTo := getConnectedToString current l.containerName } }

/-- `updateLayout()`: `currentLayout = getConnectedLists(currentLayout)`.
At the call sites the component state already holds the freshly mutated
layout, so both roles coincide. -/
def updateLayout (l : CustomizableLayout) : CustomizableLayout :=
  getConnectedLists l l

/-- `getEmptyList()`; the fresh GUID is passed in explicitly. -/
def getEmptyList (guid : String) : LayoutList :=
  { containerName := guid, width := "1fr", connectedTo := [], items := [] }

/-- `addColumnRightPressed()`. -/
def addColumnRightPressed (cur : CustomizableLayout) (guid : String) : CustomizableLayout :=
  updateLayout { cur with lists := cur.lists ++ [getEmptyList guid] }

/-- `addColumnLeftPressed()`. -/
def addColumnLeftPressed (cur : CustomizableLayout) (guid : String) : CustomizableLayout :=
  updateLayout { cur with lists := getEmptyList guid :: cur.lists }

/-- `removeColumnLeftPressed()`.  With no list, `lists[0].items` is a property
access on `undefined`; with one list, `lists.slice(1)` is empty and
`lists[0].items.push(...)` is a property access on `undefined`. -/
def removeColumnLeftPressed (cur : CustomizableLayout) : Except JsErr CustomizableLayout :=
  match cur.lists with
  | first :: second :: rest =>
      Except.ok (updateLayout
        { cur with lists := { second with items := second.items ++ first.items } :: rest })
  | _ => Except.error JsErr.typeError

/-- The list surgery of `removeColumnRightPressed`: read the last list's items
as spillover, `pop()` it, and append the spillover to the new last list.
Fewer than two lists reads `.items` off `undefined`. -/
def removeRightLists : List LayoutList → Except JsErr (List LayoutList)
  | [] => Except.error JsErr.typeError
  | [_] => Except.error JsErr.typeError
  | [a, b] => Except.ok [{ a with items := a.items ++ b.items }]
  | a :: b :: c :: rest => (removeRightLists (b :: c :: rest)).map (a :: ·)

/-- `removeColumnRightPressed()`. -/
def removeColumnRightPressed (cur : CustomizableLayout) : Except JsErr CustomizableLayout :=
  (removeRightLists cur.lists).map fun ls => updateLayout { cur with lists := ls }

/-- `resetPressed()`: adopt a deep copy of
`getConnectedLists(defaultLayout[layoutType])`, whose `connectedTo` values are
computed from the *current* (pre-reset) layout. -/
def resetPressed (cur dfltVariant : CustomizableLayout) : CustomizableLayout :=
  createCopyLayout (getConnectedLists cur dfltVariant)

/-- `currentColumns`: `lists.map(l => l.width).reduce((cur, prev) => cur + ' ' + prev, '')`. -/
def currentColumns (l : CustomizableLayout) : String :=
  (l.lists.map (·.width)).foldl (fun cur prev => cur ++ " " ++ prev) ""

/-- Space-prefixed join: `" w1 w2 ... wn"` (and `""` for no widths).  This is
the specification-side description the computed grid-track string is compared
against. -/
def leadingSpaceJoin : List String → String
  | [] => ""
  | w :: ws => " " ++ w ++ leadingSpaceJoin ws

/-- `lists.find(l => l.containerName === cn).items`, kept as an `Option`
(`undefined` when no list matches). -/
def findFirstItems : List LayoutList → String → Option (List LayoutElement)
  | [], _ => none
  | l :: rest, cn => if l.containerName = cn then some l.items else findFirstItems rest cn

/-- Replace the items of the *first* list whose `containerName` is `cn`
(the in-place mutation `lists.find(l => l.containerName === cn).items = ...` /
`...items.splice(...)` always hits the first match). -/
def setItemsOfFirst (lists : List LayoutList) (cn : String)
    (f : List LayoutElement → List LayoutElement) : List LayoutList :=
  match lists with
  | [] => []
  | l :: rest =>
      if l.containerName = cn then { l with items := f l.items } :: rest
      else l :: setItemsOfFirst rest cn f

/-- The CDK clamp: `Math.max(0, Math.min(max, value))`, on the nonnegative
indices that reach it (`max` is `length - 1` or `length`, `Nat`-truncated
subtraction matching the JS `-1` clamp-to-`0` net effect on empty arrays). -/
def clampIdx (value max : Nat) : Nat := Nat.min max value

/-- Angular CDK `moveItemInArray(array, fromIndex, toIndex)`: clamp both
indices to the array, then remove the element at `from` and re-insert it at
`to` (the CDK shifting loop has exactly this effect). -/
def moveItemInArray (xs : List LayoutElement) (fromIdx toIdx : Nat) : List LayoutElement :=
  let f := clampIdx fromIdx (xs.length - 1)
  let t := clampIdx toIdx (xs.length - 1)
  if f = t then xs
  else
    match xs.get? f with
    | none => xs
    | some x => (xs.eraseIdx f).insertIdx t x

/-- Angular CDK `transferArrayItem(currentArray, targetArray, currentIndex,
targetIndex)`: no-op on an empty source, otherwise splice the clamped source
element out and splice it into the target at the clamped target index. -/
def transferArrayItem (src tgt : List LayoutElement) (fromIdx toIdx : Nat) :
    List LayoutElement × List LayoutElement :=
  match src with
  | [] => (src, tgt)
  | x :: _ =>
      let f := clampIdx fromIdx (src.length - 1)
      let t := clampIdx toIdx tgt.length
      (src.eraseIdx f, tgt.insertIdx t (src.getD f x))

/-- The fields of the `CdkDragDrop` event that `drop` reads.  The CDK
guarantees `previousContainer === container` exactly when the two container
ids coincide, and each container's `data` is the bound list's `items`. -/
structure DropEvent where
  previousContainerId : String
  containerId : String
  previousIndex : Nat
  currentIndex : Nat
deriving DecidableEq

/-- `drop(event)`: move within one list or transfer between two lists, then
write the changed `data` arrays back into the layout.  `indexOf` returning
`-1` (container id not a `containerName`) makes `layout.lists[-1].items = ...`
a property access on `undefined`. -/
def drop (cur : CustomizableLayout) (e : DropEvent) : Except JsErr CustomizableLayout :=
  if e.previousContainerId = e.containerId then
    match findFirstItems cur.lists e.containerId with
    | none => Except.error JsErr.typeError
    | some _ =>
        Except.ok { cur with
          lists := setItemsOfFirst cur.lists e.containerId
            (fun its => moveItemInArray its e.previousIndex e.currentIndex) }
  else
    match findFirstItems cur.lists e.previousContainerId,
          findFirstItems cur.lists e.containerId with
    | some src, some tgt =>
        Except.ok { cur with
          lists :=
            setItemsOfFirst
              (setItemsOfFirst cur.lists e.previousContainerId
                (fun _ => (transferArrayItem src tgt e.previousIndex e.currentIndex).1))
              e.containerId
              (fun _ => (transferArrayItem src tgt e.previousIndex e.currentIndex).2) }
    | _, _ => Except.error JsErr.typeError

/-- `lists.flatMap(column => column.items)`. -/
def flatItems : List LayoutList → List LayoutElement
  | [] => []
  | l :: rest => l.items ++ flatItems rest

/-- `.map(le => le.componentName)` over flattened items. -/
def flatNames (lists : List LayoutList) : List String :=
  (flatItems lists).map (·.componentName)

/-- All component names of one breakpoint's layout, in list order. -/
def componentNames (l : CustomizableLayout) : List String :=
  flatNames l.lists

/-- lodash `_.groupBy(lists, l => l.containerName)`: an association list whose
keys appear in first-occurrence order and whose groups keep the original
order. -/
def insertGrouped (acc : List (String × List LayoutList)) (l : LayoutList) :
    List (String × List LayoutList) :=
  match acc with
  | [] => [(l.containerName, [l])]
  | (k, ls) :: rest =>
      if k = l.containerName then (k, ls ++ [l]) :: rest
      else (k, ls) :: insertGrouped rest l

/-- `_.groupBy(defaultLayout.lists, l => l.containerName)`. -/
def groupByContainer (lists : List LayoutList) : List (String × List LayoutList) :=
  lists.foldl insertGrouped []

/-- Object property lookup `grouped[containerName]`. -/
def lookupGroup : List (String × List LayoutList) → String → Option (List LayoutList)
  | [], _ => none
  | (k, ls) :: rest, cn => if k = cn then some ls else lookupGroup rest cn

/-- `_.findKey(grouped, (lists, containerName) => lists.find(l =>
l.containerName === containerName)?.items.find(i => i.componentName ===
name) !== undefined)`: the first group key whose group's first list (every
list of a group carries the key as its `containerName`) contains the missing
component. -/
def findOriginContainer (grouped : List (String × List LayoutList)) (name : String) :
    Option String :=
  match grouped with
  | [] => none
  | (k, ls) :: rest =>
      match ls.find? (fun l => l.containerName = k) with
      | some l =>
          if l.items.any (fun i => i.componentName = name) then some k
          else findOriginContainer rest name
      | none => findOriginContainer rest name

/-- `items.findIndex(e => e.componentName === name)` together with the element
read `items[index]`, fused into one `Option`-returning scan. -/
def findElem : List LayoutElement → String → Option (Nat × LayoutElement)
  | [], _ => none
  | e :: rest, n =>
      if e.componentName = n then some (0, e)
      else (findElem rest n).map (fun p => (p.1 + 1, p.2))

/-- One iteration of the `missingElementNames.forEach` body in
`addMissingComponentsToStoredLayout`: resolve the origin container in the
default layout, then splice the element into the stored list of the same
name.  Every `undefined` dereference of the source is an explicit
`typeError`; the three branches marked unreachable are guarded by
`findOriginContainer` returning a key. -/
def addOneMissing (grouped : List (String × List LayoutList))
    (storedLists : List LayoutList) (name : String) :
    Except JsErr (List LayoutList) :=
  match findOriginContainer grouped name with
  | none => Except.error JsErr.typeError
  | some cn =>
      match lookupGroup grouped cn with
      | none => Except.error JsErr.typeError
      | some group =>
          match group.head? with
          | none => Except.error JsErr.typeError
          | some origin =>
              match findElem origin.items name with
              | none => Except.error JsErr.typeError
              | some (i, e) =>
                  match findFirstItems storedLists cn with
                  | none => Except.error JsErr.typeError
                  | some storedItems =>
                      let idx := if storedItems.length < i then 0 else i
                      Except.ok
                        (setItemsOfFirst storedLists cn (fun xs => xs.insertIdx idx e))

/-- The `missing` set of one breakpoint variant: default component names not
present among the stored component names (in default enumeration order),
empty when either variant is absent. -/
def missingNames : Option CustomizableLayout → Option CustomizableLayout → List String
  | some s, some d =>
      (flatNames d.lists).filter (fun n => !((flatNames s.lists).contains n))
  | _, _ => []

/-- `addMissingComponentsToStoredLayout(stored, default, layoutType)` for one
breakpoint variant: skip when either variant is absent, otherwise insert each
missing component in turn (the stored lists evolve through the loop). -/
def addMissingComponentsToStoredLayout
    (stored dflt : Option CustomizableLayout) : Except JsErr (Option CustomizableLayout) :=
  match stored, dflt with
  | some s, some d =>
      let grouped := groupByContainer d.lists
      let missing := missingNames (some s) (some d)
      if missing.length > 0 then
        (missing.foldlM (fun lists name => addOneMissing grouped lists name) s.lists).map
          (fun ls => some { s with lists := ls })
      else Except.ok (some s)
  | s, _ => Except.ok s

/-- The three reconciliation calls of `initializeState`, one per breakpoint
variant; each mutates only its own variant of the stored config, and a throw
in an earlier call prevents the later ones (JavaScript execution order). -/
def reconcileConfig (stored dflt : CustomizableLayoutConfig) :
    Except JsErr CustomizableLayoutConfig :=
  match addMissingComponentsToStoredLayout stored.mobile dflt.mobile with
  | Except.error e => Except.error e
  | Except.ok m =>
      match addMissingComponentsToStoredLayout stored.tablet dflt.tablet with
      | Except.error e => Except.error e
      | Except.ok t =>
          match addMissingComponentsToStoredLayout stored.desktop dflt.desktop with
          | Except.error e => Except.error e
          | Except.ok dk =>
              Except.ok { stored with mobile := m, tablet := t, desktop := dk }

/-- Modelled from the spec: `isCustomizableLayoutConfig` (exported by
`model/customizable-layout-config.interface.ts`, which is not part of the
sources) — "A config is valid iff it has a non-empty name, a numeric version,
and at least the Mobile variant populated with lists"; it never throws on
untrusted input.  In this typed embedding the version is always numeric, so
the predicate checks the name and the Mobile variant. -/
def isCustomizableLayoutConfig (c : CustomizableLayoutConfig) : Bool :=
  c.name != "" &&
    (match c.mobile with
     | some m => !m.lists.isEmpty
     | none => false)

/-- The raw value `localStorage.getItem(name)` runs through `JSON.parse`:
absent keys give `null` (`JSON.parse(null)` parses the string `"null"`),
malformed JSON throws a `SyntaxError`, and otherwise a config-shaped value is
obtained.  JSON values of some other shape fail the validity predicate and
behave exactly like `absent`; they are not carried separately. -/
inductive StoredRaw where
  | absent : StoredRaw
  | malformed : StoredRaw
  | parsed : CustomizableLayoutConfig → StoredRaw

/-- `initializeState()`: parse the stored value, and either reconcile it into
the working state or adopt a deep copy of the default config.
`isCustomizableLayoutConfig(null)` is `false`, so an absent key falls through
to the default copy; malformed JSON makes `JSON.parse` throw before any
branch is taken. -/
def initializeState (stored : StoredRaw) (dflt : CustomizableLayoutConfig) :
    Except JsErr CustomizableLayoutConfig :=
  match stored with
  | StoredRaw.malformed => Except.error JsErr.syntaxError
  | StoredRaw.absent => Except.ok (createCopy dflt)
  | StoredRaw.parsed c =>
      if isCustomizableLayoutConfig c && dflt.version ≤ c.version then
        reconcileConfig c dflt
      else
        Except.ok (createCopy dflt)

/-- The connectedTo-completeness invariant: every list's `connectedTo` holds
exactly the other `containerName`s of the same layout. -/
def connectedComplete (l : CustomizableLayout) : Prop :=
  ∀ li ∈ l.lists,
    (∀ cn ∈ li.connectedTo, cn ∈ l.lists.map (·.containerName) ∧ cn ≠ li.containerName) ∧
    (∀ cn ∈ l.lists.map (·.containerName), cn ≠ li.containerName → cn ∈ li.connectedTo)

instance (l : CustomizableLayout) : Decidable (connectedComplete l) := by
  unfold connectedComplete; infer_instance

/-! ### Concrete layouts and configs used in counterexamples and witnesses -/

/-- Shorthand for a layout element. -/
def elt (n : String) : LayoutElement := ⟨n⟩

/-- Shorthand for a `1fr`-wide list. -/
def mkList (cn : String) (conn : List String) (names : List String) : LayoutList :=
  { containerName := cn, width := "1fr", connectedTo := conn, items := names.map elt }

/-- Default config for the C1 scenario: version 2, Mobile list `A = [x, y]`. -/
def dfltC1 : CustomizableLayoutConfig :=
  { name := "dash", version := 2, mobile := some ⟨[mkList "A" [] ["x", "y"]]⟩,
    tablet := none, desktop := none }

/-- Stored config for the C1 scenario: version 1 (older), same components with
a user-customized order `A = [y, x]`. -/
def storedC1 : CustomizableLayoutConfig :=
  { name := "dash", version := 1, mobile := some ⟨[mkList "A" [] ["y", "x"]]⟩,
    tablet := none, desktop := none }

/-- `storedC1` with a version above the default's. -/
def storedC1hi : CustomizableLayoutConfig := { storedC1 with version := 3 }

/-- Default config used in the C2 counterexample. -/
def dfltC2 : CustomizableLayoutConfig :=
  { name := "dash", version := 1, mobile := some ⟨[mkList "A" [] ["x"]]⟩,
    tablet := none, desktop := none }

/-- C3 default variant: container `A` holds `x`. -/
def dVarC3 : CustomizableLayout := ⟨[mkList "A" [] ["x"]]⟩

/-- C3 stored variant: the user deleted container `A`; only `B` remains. -/
def sVarC3 : CustomizableLayout := ⟨[mkList "B" [] []]⟩

/-- C4 pre-reset current layout: three connected columns `a`, `b`, `c`. -/
def curC4 : CustomizableLayout :=
  ⟨[mkList "a" ["b", "c"] [], mkList "b" ["a", "c"] [], mkList "c" ["a", "b"] []]⟩

/-- C4 default variant: only columns `a` and `b`. -/
def dfltC4 : CustomizableLayout := ⟨[mkList "a" ["b"] [], mkList "b" ["a"] []]⟩

/-- C5 layout with widths `1fr` and `2fr`. -/
def layC5 : CustomizableLayout :=
  ⟨[{ containerName := "A", width := "1fr", connectedTo := [], items := [] },
    { containerName := "B", width := "2fr", connectedTo := [], items := [] }]⟩

/-- C6 default variant (Scenario C): container `A` holds six components with
`y` at index 5, container `B` is empty. -/
def dVarC6 : CustomizableLayout :=
  ⟨[mkList "A" [] ["x", "a", "b", "c", "d", "y"], mkList "B" [] []]⟩

/-- C6 stored variant (Scenario C): the user moved `a`–`d` into `B`, so `A`
holds a single item `x` and only `y` is missing. -/
def sVarC6 : CustomizableLayout :=
  ⟨[mkList "A" [] ["x"], mkList "B" [] ["a", "b", "c", "d"]]⟩

/-- Expected C6 result: the out-of-range origin index 5 falls back to the
front, so `A = [y, x]`. -/
def expC6 : CustomizableLayout :=
  ⟨[mkList "A" [] ["y", "x"], mkList "B" [] ["a", "b", "c", "d"]]⟩

/-- C7 current layout: `a = [p, q]`, `b = [r]`, connected. -/
def curC7 : CustomizableLayout := ⟨[mkList "a" ["b"] ["p", "q"], mkList "b" ["a"] ["r"]]⟩

/-- Drag of the first item of `a` to position 1 of `a`. -/
def evC7 : DropEvent := ⟨"a", "a", 0, 1⟩

/-- Result of that drag: `a = [q, p]`. -/
def resC7 : CustomizableLayout := ⟨[mkList "a" ["b"] ["q", "p"], mkList "b" ["a"] ["r"]]⟩

/-- C8 stored config: Mobile `A = [x]`. -/
def storedC8 : CustomizableLayoutConfig :=
  { name := "n", version := 1, mobile := some ⟨[mkList "A" [] ["x"]]⟩,
    tablet := none, desktop := none }

/-- C8 default config: Mobile `A = [x, y]` (so `y` is missing once). -/
def dfltC8 : CustomizableLayoutConfig :=
  { name := "n", version := 1, mobile := some ⟨[mkList "A" [] ["x", "y"]]⟩,
    tablet := none, desktop := none }

/-- C8 reconciled result: `y` inserted at its origin index 1. -/
def reconC8 : CustomizableLayoutConfig :=
  { name := "n", version := 1, mobile := some ⟨[mkList "A" [] ["x", "y"]]⟩,
    tablet := none, desktop := none }

/-- A one-column layout, for the single-column removal claims. -/
def oneColC10 : CustomizableLayout := ⟨[mkList "a" [] ["p"]]⟩

/-! ### Theorems -/

/-- Helper: the width fold of `currentColumns` prefixes every width with one
space. -/
theorem foldl_space (ws : List String) (acc : String) :
    ws.foldl (fun cur prev => cur ++ " " ++ prev) acc = acc ++ leadingSpaceJoin ws := by
  induction ws generalizing acc with
  | nil => simp [leadingSpaceJoin]
  | cons w ws ih =>
      rw [List.foldl_cons, ih]
      simp only [leadingSpaceJoin, String.append_assoc]

/-- C9: the breakpoint selector maps `width ≤ tabletBreakpoint` to Mobile and
everything else to Tablet; Desktop is never selected; width 500 against
threshold 990 gives Mobile and width 1200 gives Tablet. -/
theorem c9_breakpoint_selector :
    ∀ tabletBp width : Int,
      (width ≤ tabletBp → selectLayoutType tabletBp width = LayoutType.Mobile) ∧
      (tabletBp < width → selectLayoutType tabletBp width = LayoutType.Tablet) ∧
      selectLayoutType tabletBp width ≠ LayoutType.Desktop ∧
      selectLayoutType 990 500 = LayoutType.Mobile ∧
      selectLayoutType 990 1200 = LayoutType.Tablet := by
  intro tb w
  refine ⟨fun h => ?_, fun h => ?_, ?_, by decide, by decide⟩
  · simp [selectLayoutType, h]
  · simp [selectLayoutType, not_le.mpr h]
  · unfold selectLayoutType; split <;> simp

/-- Witness for C9 at tabletBreakpoint 990, widths 500 and 1200. -/
theorem c9_breakpoint_selector_witness :
    selectLayoutType 990 500 = LayoutType.Mobile ∧
    selectLayoutType 990 1200 = LayoutType.Tablet ∧
    selectLayoutType 990 1200 ≠ LayoutType.Desktop :=
  ⟨(c9_breakpoint_selector 990 500).1 (by decide),
   (c9_breakpoint_selector 990 1200).2.1 (by decide),
   (c9_breakpoint_selector 990 1200).2.2.1⟩

/-- C10: on a layout with fewer than two lists, both column removals fail
with a runtime `TypeError` (a property access on `undefined`) instead of a
defensive no-op. -/
theorem c10_single_column_remove_errors :
    ∀ cur : CustomizableLayout, cur.lists.length < 2 →
      removeColumnLeftPressed cur = Except.error JsErr.typeError ∧
      removeColumnRightPressed cur = Except.error JsErr.typeError := by
  intro cur h
  obtain ⟨ls⟩ := cur
  match ls with
  | [] => exact ⟨rfl, rfl⟩
  | [_] => exact ⟨rfl, rfl⟩
  | _ :: _ :: _ => simp at h; omega

/-- Witness for C10 on a concrete one-column layout. -/
theorem c10_single_column_remove_errors_witness :
    removeColumnLeftPressed oneColC10 = Except.error JsErr.typeError ∧
    removeColumnRightPressed oneColC10 = Except.error JsErr.typeError :=
  c10_single_column_remove_errors oneColC10 (by decide)

/-- C2 counterexample: on malformed stored JSON, initialization propagates
the `JSON.parse` error instead of falling through to a deep copy of the
default config. -/
theorem c2_counterexample :
    initializeState StoredRaw.malformed dfltC2 = Except.error JsErr.syntaxError ∧
    initializeState StoredRaw.malformed dfltC2 ≠ Except.ok (createCopy dfltC2) :=
  ⟨rfl, fun h => Except.noConfusion h⟩

/-- C2 amended: an absent stored value falls through to a deep copy of the
default, but malformed stored JSON makes `JSON.parse` throw and the error
propagates out of initialization. -/
theorem c2_amended_load_failures :
    ∀ d : CustomizableLayoutConfig,
      initializeState StoredRaw.absent d = Except.ok (createCopy d) ∧
      initializeState StoredRaw.malformed d = Except.error JsErr.syntaxError :=
  fun _ => ⟨rfl, rfl⟩

/-- Witness for the amended C2 on a concrete default config. -/
theorem c2_amended_load_failures_witness :
    initializeState StoredRaw.absent dfltC2 = Except.ok (createCopy dfltC2) :=
  (c2_amended_load_failures dfltC2).1

/-- C1 counterexample: a valid stored config with version 1 against a default
with version 2 satisfies the claim's hypothesis (stored version ≤ default
version) and reconciles to itself, yet initialization adopts a deep copy of
the default instead of the reconciled stored config. -/
theorem c1_counterexample :
    isCustomizableLayoutConfig storedC1 = true ∧
    storedC1.version ≤ dfltC1.version ∧
    reconcileConfig storedC1 dfltC1 = Except.ok storedC1 ∧
    initializeState (StoredRaw.parsed storedC1) dfltC1 = Except.ok (createCopy dfltC1) ∧
    createCopy dfltC1 ≠ storedC1 :=
  ⟨by decide, by decide, rfl, rfl, by decide⟩

/-- C1 amended: initialization reconciles and adopts the stored config
exactly when it is valid and its version is *greater than or equal to* the
default's version; when its version is strictly below the default's, a deep
copy of the default is adopted with no partial merge. -/
theorem c1_amended_version_gate :
    ∀ c d : CustomizableLayoutConfig, isCustomizableLayoutConfig c = true →
      (d.version ≤ c.version →
        initializeState (StoredRaw.parsed c) d = reconcileConfig c d) ∧
      (c.version < d.version →
        initializeState (StoredRaw.parsed c) d = Except.ok (createCopy d)) := by
  intro c d hv
  constructor
  · intro hle
    simp [initializeState, hv, hle]
  · intro hlt
    have h : ¬ d.version ≤ c.version := by omega
    simp [initializeState, hv, h]

/-- Witness for the amended C1: a stored version 3 ≥ default version 2 takes
the reconciliation path, a stored version 1 < 2 takes the default-copy path. -/
theorem c1_amended_version_gate_witness :
    initializeState (StoredRaw.parsed storedC1hi) dfltC1 = reconcileConfig storedC1hi dfltC1 ∧
    initializeState (StoredRaw.parsed storedC1) dfltC1 = Except.ok (createCopy dfltC1) :=
  ⟨(c1_amended_version_gate storedC1hi dfltC1 (by decide)).1 (by decide),
   (c1_amended_version_gate storedC1 dfltC1 (by decide)).2 (by decide)⟩

/-- C5 counterexample: with widths `1fr` and `2fr` the computed grid-track
string carries a leading space, so it differs from the plain space-joined
widths. -/
theorem c5_counterexample :
    currentColumns layC5 = " 1fr 2fr" ∧ currentColumns layC5 ≠ "1fr 2fr" :=
  ⟨rfl, by decide⟩

/-- C5 amended: the computed grid-track string prefixes every width with a
single space (so it equals a *leading space* followed by the widths joined by
single spaces, empty for an empty layout). -/
theorem c5_amended_leading_space :
    ∀ l : CustomizableLayout, currentColumns l = leadingSpaceJoin (l.lists.map (·.width)) := by
  intro l
  unfold currentColumns
  rw [foldl_space]
  simp

/-- Witness for the amended C5 on the concrete two-column layout. -/
theorem c5_amended_leading_space_witness :
    currentColumns layC5 = leadingSpaceJoin ["1fr", "2fr"] :=
  c5_amended_leading_space layC5

/-- Helper: `setItemsOfFirst` keeps every list's `containerName`. -/
theorem map_containerName_setItemsOfFirst (ls : List LayoutList) (cn : String)
    (f : List LayoutElement → List LayoutElement) :
    (setItemsOfFirst ls cn f).map (·.containerName) = ls.map (·.containerName) := by
  induction ls with
  | nil => rfl
  | cons l rest ih => by_cases h : l.containerName = cn <;> simp [setItemsOfFirst, h, ih]

/-- Helper: every list produced by `setItemsOfFirst` keeps the name and the
connections of a list of the input. -/
theorem mem_setItemsOfFirst (ls : List LayoutList) (cn : String)
    (f : List LayoutElement → List LayoutElement) :
    ∀ li ∈ setItemsOfFirst ls cn f, ∃ l0 ∈ ls,
      li.containerName = l0.containerName ∧ li.connectedTo = l0.connectedTo := by
  induction ls with
  | nil => intro li h; cases h
  | cons l rest ih =>
      intro li hmem
      by_cases h : l.containerName = cn
      · simp only [setItemsOfFirst, if_pos h, List.mem_cons] at hmem
        rcases hmem with rfl | hmem
        · exact ⟨l, List.mem_cons_self _ _, rfl, rfl⟩
        · exact ⟨li, List.mem_cons_of_mem _ hmem, rfl, rfl⟩
      · simp only [setItemsOfFirst, if_neg h, List.mem_cons] at hmem
        rcases hmem with rfl | hmem
        · exact ⟨li, List.mem_cons_self _ _, rfl, rfl⟩
        · obtain ⟨l0, hl0, h1, h2⟩ := ih li hmem
          exact ⟨l0, List.mem_cons_of_mem _ hl0, h1, h2⟩

/-- Helper: `updateLayout` establishes the connectedTo-completeness
invariant on any layout. -/
theorem connectedComplete_updateLayout (l : CustomizableLayout) :
    connectedComplete (updateLayout l) := by
  intro li hli
  simp only [updateLayout, getConnectedLists] at hli
  obtain ⟨l0, _, rfl⟩ := List.mem_map.mp hli
  have hnames :
      (updateLayout l).lists.map (·.containerName) = l.lists.map (·.containerName) := by
    simp [updateLayout, getConnectedLists, List.map_map, Function.comp]
  constructor
  · intro cn hcn
    simp only [getConnectedToString, List.mem_filter] at hcn
    exact ⟨by rw [hnames]; exact hcn.1, by simpa using hcn.2⟩
  · intro cn hcn hne
    rw [hnames] at hcn
    simp only [getConnectedToString, List.mem_filter]
    exact ⟨hcn, by simpa using hne⟩

/-- Helper: replacing items of one list preserves the connectedTo
invariant. -/
theorem connectedComplete_setItemsOfFirst (ls : List LayoutList) (cn : String)
    (f : List LayoutElement → List LayoutElement)
    (h : connectedComplete ⟨ls⟩) : connectedComplete ⟨setItemsOfFirst ls cn f⟩ := by
  intro li hli
  obtain ⟨l0, hl0, hname, hconn⟩ := mem_setItemsOfFirst ls cn f li hli
  have h0 := h l0 hl0
  have hmap : (setItemsOfFirst ls cn f).map (·.containerName) = ls.map (·.containerName) :=
    map_containerName_setItemsOfFirst ls cn f
  constructor
  · intro cn' hcn'
    rw [hconn] at hcn'
    obtain ⟨h1, h2⟩ := h0.1 cn' hcn'
    exact ⟨by rw [show (CustomizableLayout.mk (setItemsOfFirst ls cn f)).lists =
      setItemsOfFirst ls cn f from rfl, hmap]; exact h1, by rw [hname]; exact h2⟩
  · intro cn' hcn' hne
    rw [show (CustomizableLayout.mk (setItemsOfFirst ls cn f)).lists =
      setItemsOfFirst ls cn f from rfl, hmap] at hcn'
    rw [hconn]
    exact h0.2 cn' hcn' (by rw [hname] at hne; exact hne)

/-- C4 counterexample: with a third user-added column `c` in the current
layout and a two-column default, `resetPressed` produces a layout whose
`connectedTo` values mention `c`, which is not a container of the resulting
layout — the completeness invariant is violated right after the reset
mutation even though it held before. -/
theorem c4_counterexample :
    connectedComplete curC4 ∧ ¬ connectedComplete (resetPressed curC4 dfltC4) := by
  constructor
  · decide
  · decide

/-- C4 amended: mutations that run the connection recomputation on the
post-mutation layout (column addition and removal) establish connectedTo
completeness on the resulting layout, and `drop` preserves it; but `reset`
computes every `connectedTo` from the layout being *replaced*, so after a
reset each list's connections list the other containers of the previous
current layout, not of the resulting layout. -/
theorem c4_amended_connected_recompute :
    (∀ (cur : CustomizableLayout) (guid : String),
        connectedComplete (addColumnRightPressed cur guid)) ∧
    (∀ (cur : CustomizableLayout) (guid : String),
        connectedComplete (addColumnLeftPressed cur guid)) ∧
    (∀ cur r : CustomizableLayout,
        removeColumnLeftPressed cur = Except.ok r → connectedComplete r) ∧
    (∀ cur r : CustomizableLayout,
        removeColumnRightPressed cur = Except.ok r → connectedComplete r) ∧
    (∀ (cur : CustomizableLayout) (e : DropEvent) (r : CustomizableLayout),
        drop cur e = Except.ok r → connectedComplete cur → connectedComplete r) ∧
    (∀ cur dflt : CustomizableLayout,
        (resetPressed cur dflt).lists =
          dflt.lists.map fun l =>
            { l with connectedTo := getConnectedToString cur l.containerName }) := by
  refine ⟨?_, ?_, ?_, ?_, ?_, ?_⟩
  · intro cur guid; exact connectedComplete_updateLayout _
  · intro cur guid; exact connectedComplete_updateLayout _
  · intro cur r h
    obtain ⟨ls⟩ := cur
    match ls, h with
    | [], h => cases h
    | [_], h => cases h
    | a :: b :: t, h =>
        simp only [removeColumnLeftPressed, Except.ok.injEq] at h
        rw [← h]
        exact connectedComplete_updateLayout _
  · intro cur r h
    unfold removeColumnRightPressed at h
    cases hr : removeRightLists cur.lists with
    | error e => rw [hr] at h; cases h
    | ok ls =>
        rw [hr] at h
        simp only [Except.map, Except.ok.injEq] at h
        rw [← h]
        exact connectedComplete_updateLayout _
  · intro cur e r h hc
    obtain ⟨ls⟩ := cur
    unfold drop at h
    by_cases hid : e.previousContainerId = e.containerId
    · rw [if_pos hid] at h
      cases hf : findFirstItems ls e.containerId with
      | none => rw [hf] at h; cases h
      | some its =>
          rw [hf] at h
          simp only [Except.ok.injEq] at h
          rw [← h]
          exact connectedComplete_setItemsOfFirst _ _ _ hc
    · rw [if_neg hid] at h
      cases hf1 : findFirstItems ls e.previousContainerId with
      | none => rw [hf1] at h; cases h
      | some src =>
          cases hf2 : findFirstItems ls e.containerId with
          | none => rw [hf1, hf2] at h; cases h
          | some tgt =>
              rw [hf1, hf2] at h
              simp only [Except.ok.injEq] at h
              rw [← h]
              exact connectedComplete_setItemsOfFirst _ _ _
                (connectedComplete_setItemsOfFirst _ _ _ hc)
  · intro cur dflt
    rfl

/-- Witness for the amended C4: column addition on the concrete three-column
layout, and the reset connections computed from the pre-reset layout. -/
theorem c4_amended_connected_recompute_witness :
    connectedComplete (addColumnRightPressed curC4 "g") ∧
    (resetPressed curC4 dfltC4).lists =
      dfltC4.lists.map (fun l =>
        { l with connectedTo := getConnectedToString curC4 l.containerName }) :=
  ⟨c4_amended_connected_recompute.1 curC4 "g",
   c4_amended_connected_recompute.2.2.2.2.2 curC4 dfltC4⟩

/-- Helper: when the origin container of a missing component resolves but has
no counterpart among the stored lists, the per-component insertion step
throws. -/
theorem addOneMissing_error_of_no_container (grouped : List (String × List LayoutList))
    (ls : List LayoutList) (name cn : String)
    (h1 : findOriginContainer grouped name = some cn)
    (h2 : findFirstItems ls cn = none) :
    addOneMissing grouped ls name = Except.error JsErr.typeError := by
  cases h3 : lookupGroup grouped cn with
  | none => simp [addOneMissing, h1, h3]
  | some g =>
      cases h4 : g.head? with
      | none => simp [addOneMissing, h1, h3, h4]
      | some o =>
          cases h5 : findElem o.items name with
          | none => simp [addOneMissing, h1, h3, h4, h5]
          | some p =>
              obtain ⟨i, e⟩ := p
              simp [addOneMissing, h1, h3, h4, h5, h2]

/-- C3 counterexample: with default container `A = [x]` and a stored variant
whose only container is `B`, the component `x` is missing and its origin
container `A` has no stored counterpart — and reconciliation fails with a
runtime `TypeError` instead of skipping the insertion. -/
theorem c3_counterexample :
    missingNames (some sVarC3) (some dVarC3) = ["x"] ∧
    findFirstItems sVarC3.lists "A" = none ∧
    addMissingComponentsToStoredLayout (some sVarC3) (some dVarC3) =
      Except.error JsErr.typeError :=
  ⟨by decide, by decide, rfl⟩

/-- C3 amended: when the first missing component's origin container has no
matching list in the stored variant, reconciliation of that variant does not
skip the component — it aborts with a runtime `TypeError` (a property access
on `undefined`), and the remaining components are not processed. -/
theorem c3_amended_missing_container_errors :
    ∀ (s d : CustomizableLayout) (name cn : String) (rest : List String),
      missingNames (some s) (some d) = name :: rest →
      findOriginContainer (groupByContainer d.lists) name = some cn →
      findFirstItems s.lists cn = none →
      addMissingComponentsToStoredLayout (some s) (some d) =
        Except.error JsErr.typeError := by
  intro s d name cn rest hm h1 h2
  simp only [addMissingComponentsToStoredLayout]
  rw [hm]
  rw [if_pos (by simp)]
  rw [List.foldlM_cons, addOneMissing_error_of_no_container _ _ _ _ h1 h2]
  rfl

/-- Witness for the amended C3 on the concrete deleted-container scenario. -/
theorem c3_amended_missing_container_errors_witness :
    addMissingComponentsToStoredLayout (some sVarC3) (some dVarC3) =
      Except.error JsErr.typeError :=
  c3_amended_missing_container_errors sVarC3 dVarC3 "x" "A" []
    (by decide) (by decide) (by decide)

/-- Helper: the element found by `findElem` carries the searched name. -/
theorem findElem_name (items : List LayoutElement) (n : String) :
    ∀ i e, findElem items n = some (i, e) → e.componentName = n := by
  induction items with
  | nil => intro i e h; cases h
  | cons a rest ih =>
      intro i e h
      by_cases hc : a.componentName = n
      · simp only [findElem, if_pos hc, Option.some.injEq, Prod.mk.injEq] at h
        rw [← h.2]; exact hc
      · simp only [findElem, if_neg hc] at h
        cases hf : findElem rest n with
        | none => rw [hf] at h; cases h
        | some p =>
            rw [hf] at h
            simp only [Option.map_some', Option.some.injEq, Prod.mk.injEq] at h
            rw [← h.2]; exact ih p.1 p.2 (by rw [hf])

/-- C6: a missing component is inserted into the stored list that carries its
origin `containerName`; the insertion index is its index in the origin
default list, except that an index strictly greater than the stored list's
current length falls back to index 0.  The second conjunct is Scenario C:
stored `A = [x]`, default origin index 5 for `y`, result `A = [y, x]`. -/
theorem c6_insertion_index_policy :
    (∀ (grouped : List (String × List LayoutList)) (storedLists : List LayoutList)
        (name cn : String) (g : List LayoutList) (o : LayoutList) (i : Nat)
        (e : LayoutElement) (its : List LayoutElement),
        findOriginContainer grouped name = some cn →
        lookupGroup grouped cn = some g →
        g.head? = some o →
        findElem o.items name = some (i, e) →
        findFirstItems storedLists cn = some its →
        e.componentName = name ∧
        (its.length < i →
          addOneMissing grouped storedLists name =
            Except.ok (setItemsOfFirst storedLists cn (fun xs => xs.insertIdx 0 e))) ∧
        (i ≤ its.length →
          addOneMissing grouped storedLists name =
            Except.ok (setItemsOfFirst storedLists cn (fun xs => xs.insertIdx i e)))) ∧
    addMissingComponentsToStoredLayout (some sVarC6) (some dVarC6) =
      Except.ok (some expC6) := by
  constructor
  · intro grouped storedLists name cn g o i e its h1 h2 h3 h4 h5
    refine ⟨findElem_name _ _ i e h4, fun hlt => ?_, fun hle => ?_⟩
    · simp [addOneMissing, h1, h2, h3, h4, h5, hlt]
    · simp [addOneMissing, h1, h2, h3, h4, h5, Nat.not_lt.mpr hle]
  · rfl

/-- Witness for C6: the Scenario C insertion step, `y` placed at the front of
stored `A = [x]` because its origin index 5 is out of range. -/
theorem c6_insertion_index_policy_witness :
    addOneMissing (groupByContainer dVarC6.lists) sVarC6.lists "y" =
      Except.ok (setItemsOfFirst sVarC6.lists "A" (fun xs => xs.insertIdx 0 (elt "y"))) :=
  ((c6_insertion_index_policy.1 (groupByContainer dVarC6.lists) sVarC6.lists "y" "A"
      [mkList "A" [] ["x", "a", "b", "c", "d", "y"]]
      (mkList "A" [] ["x", "a", "b", "c", "d", "y"])
      5 (elt "y") [elt "x"]
      (by decide) (by decide) (by decide) (by decide) (by decide)).2.1 (by decide))

/-- Helper: `flatItems` distributes over append. -/
theorem flatItems_append (l₁ l₂ : List LayoutList) :
    flatItems (l₁ ++ l₂) = flatItems l₁ ++ flatItems l₂ := by
  induction l₁ with
  | nil => rfl
  | cons l rest ih => simp [flatItems, ih]

/-- Helper: `flatNames` on a cons. -/
theorem flatNames_cons (l : LayoutList) (ls : List LayoutList) :
    flatNames (l :: ls) = l.items.map (·.componentName) ++ flatNames ls := by
  simp [flatNames, flatItems]

/-- Helper: `flatNames` distributes over append. -/
theorem flatNames_append (l₁ l₂ : List LayoutList) :
    flatNames (l₁ ++ l₂) = flatNames l₁ ++ flatNames l₂ := by
  simp [flatNames, flatItems_append]

/-- Helper: a successful `findFirstItems` splits the lists around the first
match, and determines `setItemsOfFirst`. -/
theorem findFirstItems_split (ls : List LayoutList) (cn : String)
    (its : List LayoutElement) (h : findFirstItems ls cn = some its) :
    ∃ pre l0 post, ls = pre ++ l0 :: post ∧ l0.containerName = cn ∧ l0.items = its ∧
      ∀ f, setItemsOfFirst ls cn f = pre ++ { l0 with items := f its } :: post := by
  induction ls with
  | nil => cases h
  | cons l rest ih =>
      by_cases hc : l.containerName = cn
      · have hits : l.items = its := by simpa [findFirstItems, hc] using h
        exact ⟨[], l, rest, rfl, hc, hits,
          fun f => by simp [setItemsOfFirst, hc, hits]⟩
      · have h' : findFirstItems rest cn = some its := by
          simpa [findFirstItems, hc] using h
        obtain ⟨pre, l0, post, he, h1, h2, h3⟩ := ih h'
        exact ⟨l :: pre, l0, post, by rw [he]; rfl, h1, h2,
          fun f => by simp [setItemsOfFirst, hc, h3 f]⟩

/-- Helper: multiset balance of component names under `setItemsOfFirst`: the
updated layout plus the old items carries the same names as the old layout
plus the new items. -/
theorem flatNames_setItemsOfFirst (ls : List LayoutList) (cn : String)
    (its : List LayoutElement) (f : List LayoutElement → List LayoutElement)
    (h : findFirstItems ls cn = some its) :
    (↑(flatNames (setItemsOfFirst ls cn f)) : Multiset String) +
        ↑(its.map (·.componentName)) =
      ↑(flatNames ls) + ↑((f its).map (·.componentName)) := by
  obtain ⟨pre, l0, post, he, hcn, hits, hset⟩ := findFirstItems_split ls cn its h
  subst he
  rw [hset f, flatNames_append, flatNames_append, flatNames_cons, flatNames_cons, hits]
  simp only [← Multiset.coe_add]
  abel

/-- Helper: a list is a permutation of any of its elements consed onto the
remainder after erasing it. -/
theorem perm_get_cons_eraseIdx (xs : List LayoutElement) :
    ∀ (n : Nat) (x : LayoutElement), xs.get? n = some x →
      xs.Perm (x :: xs.eraseIdx n) := by
  induction xs with
  | nil => intro n x h; cases h
  | cons a t ih =>
      intro n x h
      cases n with
      | zero =>
          have : a = x := by simpa using h
          subst this
          exact List.Perm.refl _
      | succ n =>
          have h' : t.get? n = some x := by simpa using h
          exact ((ih n x h').cons a).trans (List.Perm.swap x a _)

/-- Helper: the CDK move is a permutation. -/
theorem perm_moveItemInArray (xs : List LayoutElement) (a b : Nat) :
    (moveItemInArray xs a b).Perm xs := by
  by_cases hft : clampIdx a (xs.length - 1) = clampIdx b (xs.length - 1)
  · simp [moveItemInArray, hft]
  · simp only [moveItemInArray, if_neg hft]
    cases hg : xs.get? (clampIdx a (xs.length - 1)) with
    | none => exact List.Perm.refl _
    | some x =>
        have hflt : clampIdx a (xs.length - 1) < xs.length := by
          rcases List.get?_eq_some.mp hg with ⟨hlt, _⟩
          exact hlt
        have hlen : (xs.eraseIdx (clampIdx a (xs.length - 1))).length + 1 = xs.length :=
          List.length_eraseIdx_add_one hflt
        have ht : clampIdx b (xs.length - 1) ≤
            (xs.eraseIdx (clampIdx a (xs.length - 1))).length := by
          have : clampIdx b (xs.length - 1) ≤ xs.length - 1 := Nat.min_le_left _ _
          omega
        exact (List.perm_insertIdx x _ ht).trans
          (perm_get_cons_eraseIdx xs _ x hg).symm

/-- Helper: the CDK transfer preserves the combined contents of the two
lists. -/
theorem perm_transferArrayItem (src tgt : List LayoutElement) (a b : Nat) :
    ((transferArrayItem src tgt a b).1 ++ (transferArrayItem src tgt a b).2).Perm
      (src ++ tgt) := by
  match src with
  | [] => exact List.Perm.refl _
  | x :: rest =>
      simp only [transferArrayItem]
      have hflt : clampIdx a ((x :: rest).length - 1) < (x :: rest).length := by
        have : clampIdx a ((x :: rest).length - 1) ≤ (x :: rest).length - 1 :=
          Nat.min_le_left _ _
        simp only [List.length_cons] at *
        omega
      have hy : (x :: rest).get? (clampIdx a ((x :: rest).length - 1)) =
          some ((x :: rest).get ⟨_, hflt⟩) := List.get?_eq_get hflt
      have hgd : (x :: rest).getD (clampIdx a ((x :: rest).length - 1)) x =
          (x :: rest).get ⟨_, hflt⟩ := by
        rw [List.getD_eq_get?, hy]; rfl
      rw [hgd]
      have hperm1 : (x :: rest).Perm
          ((x :: rest).get ⟨_, hflt⟩ ::
            (x :: rest).eraseIdx (clampIdx a ((x :: rest).length - 1))) :=
        perm_get_cons_eraseIdx _ _ _ hy
      have hperm2 : (tgt.insertIdx (clampIdx b tgt.length) ((x :: rest).get ⟨_, hflt⟩)).Perm
          ((x :: rest).get ⟨_, hflt⟩ :: tgt) :=
        List.perm_insertIdx _ tgt (Nat.min_le_left _ _)
      exact ((List.Perm.append_left _ hperm2).trans List.perm_middle).trans
        ((hperm1.append_right tgt).symm)

/-- Helper: `setItemsOfFirst` on one container name does not change what
`findFirstItems` sees under a different name. -/
theorem findFirstItems_setItemsOfFirst_ne (ls : List LayoutList) (cn cn' : String)
    (f : List LayoutElement → List LayoutElement) (h : cn' ≠ cn) :
    findFirstItems (setItemsOfFirst ls cn f) cn' = findFirstItems ls cn' := by
  induction ls with
  | nil => rfl
  | cons l rest ih =>
      by_cases hc : l.containerName = cn
      · have hcc : cn ≠ cn' := fun hh => h hh.symm
        simp [setItemsOfFirst, hc, findFirstItems, hcc]
      · by_cases hc' : l.containerName = cn'
        · simp [setItemsOfFirst, findFirstItems, hc, hc', h]
        · simp [setItemsOfFirst, findFirstItems, hc, hc', ih]

/-- Helper: rewriting every list's `connectedTo` leaves the flattened
component names unchanged. -/
theorem flatNames_map_connected (ls : List LayoutList) (g : LayoutList → List String) :
    flatNames (ls.map fun l => { l with connectedTo := g l }) = flatNames ls := by
  induction ls with
  | nil => rfl
  | cons l rest ih => simp [List.map_cons, flatNames_cons, ih]

/-- Helper: `updateLayout` does not change the component names. -/
theorem componentNames_updateLayout (l : CustomizableLayout) :
    componentNames (updateLayout l) = componentNames l := by
  simp [updateLayout, getConnectedLists, componentNames, flatNames_map_connected]

/-- Helper: the right-column removal preserves the multiset of component
names. -/
theorem removeRightLists_names : ∀ (ls ls' : List LayoutList),
    removeRightLists ls = Except.ok ls' →
    (↑(flatNames ls') : Multiset String) = ↑(flatNames ls) := by
  intro ls
  induction ls using removeRightLists.induct with
  | case1 => intro ls' h; cases h
  | case2 _ => intro ls' h; cases h
  | case3 a b =>
      intro ls' h
      simp only [removeRightLists, Except.ok.injEq] at h
      subst h
      simp [flatNames, flatItems]
  | case4 a b c rest ih =>
      intro ls' h
      simp only [removeRightLists] at h
      cases hr : removeRightLists (b :: c :: rest) with
      | error e => rw [hr] at h; cases h
      | ok ls'' =>
          rw [hr] at h
          simp only [Except.map, Except.ok.injEq] at h
          subst h
          have hih := ih ls'' hr
          rw [flatNames_cons, flatNames_cons, ← Multiset.coe_add, ← Multiset.coe_add, hih]

/-- Helper: cancellation step for the two-list transfer balance. -/
theorem multiset_cancel_aux {X2 X1 X0 tgtM t1M srcM s1M : Multiset String}
    (hbal1 : X1 + srcM = X0 + s1M) (hbal2 : X2 + tgtM = X1 + t1M)
    (hcons : s1M + t1M = srcM + tgtM) : X2 = X0 := by
  have key : X2 + (tgtM + srcM) = X0 + (tgtM + srcM) := by
    calc X2 + (tgtM + srcM) = (X2 + tgtM) + srcM := by rw [add_assoc]
      _ = (X1 + t1M) + srcM := by rw [hbal2]
      _ = (X1 + srcM) + t1M := by rw [add_right_comm]
      _ = (X0 + s1M) + t1M := by rw [hbal1]
      _ = X0 + (s1M + t1M) := by rw [add_assoc]
      _ = X0 + (srcM + tgtM) := by rw [hcons]
      _ = X0 + (tgtM + srcM) := by rw [add_comm srcM tgtM]
  exact add_right_cancel key

/-- Helper: any successful `drop` permutes the component names of the active
layout. -/
theorem drop_names_perm (cur : CustomizableLayout) (e : DropEvent)
    (r : CustomizableLayout) (h : drop cur e = Except.ok r) :
    (componentNames r).Perm (componentNames cur) := by
  obtain ⟨ls⟩ := cur
  unfold drop at h
  by_cases hid : e.previousContainerId = e.containerId
  · rw [if_pos hid] at h
    cases hf : findFirstItems ls e.containerId with
    | none => rw [hf] at h; cases h
    | some its =>
        rw [hf] at h
        simp only [Except.ok.injEq] at h
        subst h
        have hbal := flatNames_setItemsOfFirst ls e.containerId its
          (fun xs => moveItemInArray xs e.previousIndex e.currentIndex) hf
        have hmv : (↑((moveItemInArray its e.previousIndex e.currentIndex).map
            (·.componentName)) : Multiset String) = ↑(its.map (·.componentName)) :=
          Multiset.coe_eq_coe.mpr ((perm_moveItemInArray its _ _).map _)
        rw [hmv] at hbal
        exact Multiset.coe_eq_coe.mp (add_right_cancel hbal)
  · rw [if_neg hid] at h
    cases hf1 : findFirstItems ls e.previousContainerId with
    | none => rw [hf1] at h; cases h
    | some src =>
        cases hf2 : findFirstItems ls e.containerId with
        | none => rw [hf1, hf2] at h; cases h
        | some tgt =>
            rw [hf1, hf2] at h
            simp only [Except.ok.injEq] at h
            subst h
            have hbal1 := flatNames_setItemsOfFirst ls e.previousContainerId src
              (fun _ => (transferArrayItem src tgt e.previousIndex e.currentIndex).1) hf1
            have hffi : findFirstItems
                (setItemsOfFirst ls e.previousContainerId
                  (fun _ => (transferArrayItem src tgt e.previousIndex e.currentIndex).1))
                e.containerId = some tgt := by
              rw [findFirstItems_setItemsOfFirst_ne _ _ _ _ (fun hh => hid hh.symm)]
              exact hf2
            have hbal2 := flatNames_setItemsOfFirst _ e.containerId tgt
              (fun _ => (transferArrayItem src tgt e.previousIndex e.currentIndex).2) hffi
            have hcons :
                (↑(((transferArrayItem src tgt e.previousIndex e.currentIndex).1).map
                    (·.componentName)) : Multiset String) +
                  ↑(((transferArrayItem src tgt e.previousIndex e.currentIndex).2).map
                    (·.componentName)) =
                  ↑(src.map (·.componentName)) + ↑(tgt.map (·.componentName)) := by
              have hp := (perm_transferArrayItem src tgt e.previousIndex e.currentIndex).map
                (·.componentName)
              rw [List.map_append, List.map_append] at hp
              have hq := Multiset.coe_eq_coe.mpr hp
              rw [← Multiset.coe_add, ← Multiset.coe_add] at hq
              exact hq
            exact Multiset.coe_eq_coe.mp (multiset_cancel_aux hbal1 hbal2 hcons)

/-- C7: every Mutator operation preserves the one-place-per-component
invariant: a successful `drop` (move or transfer), column addition, column
removal, and reset each yield a layout whose component names are the same
multiset as before (for reset: as the default variant), so no component is
duplicated or lost. -/
theorem c7_no_duplication :
    (∀ (cur : CustomizableLayout) (e : DropEvent) (r : CustomizableLayout),
        drop cur e = Except.ok r →
        (componentNames r).Perm (componentNames cur) ∧
        ((componentNames cur).Nodup → (componentNames r).Nodup)) ∧
    (∀ (cur : CustomizableLayout) (guid : String),
        componentNames (addColumnRightPressed cur guid) = componentNames cur ∧
        componentNames (addColumnLeftPressed cur guid) = componentNames cur) ∧
    (∀ cur r : CustomizableLayout, removeColumnLeftPressed cur = Except.ok r →
        (componentNames r).Perm (componentNames cur) ∧
        ((componentNames cur).Nodup → (componentNames r).Nodup)) ∧
    (∀ cur r : CustomizableLayout, removeColumnRightPressed cur = Except.ok r →
        (componentNames r).Perm (componentNames cur) ∧
        ((componentNames cur).Nodup → (componentNames r).Nodup)) ∧
    (∀ cur dflt : CustomizableLayout,
        componentNames (resetPressed cur dflt) = componentNames dflt ∧
        ((componentNames dflt).Nodup → (componentNames (resetPressed cur dflt)).Nodup)) := by
  refine ⟨?_, ?_, ?_, ?_, ?_⟩
  · intro cur e r h
    have hperm := drop_names_perm cur e r h
    exact ⟨hperm, fun hnd => hperm.nodup_iff.mpr hnd⟩
  · intro cur guid
    constructor
    · rw [addColumnRightPressed, componentNames_updateLayout]
      simp [componentNames, flatNames, flatItems_append, flatItems, getEmptyList]
    · rw [addColumnLeftPressed, componentNames_updateLayout]
      simp [componentNames, flatNames, flatItems, getEmptyList]
  · intro cur r h
    obtain ⟨ls⟩ := cur
    match ls, h with
    | [], h => cases h
    | [_], h => cases h
    | a :: b :: t, h =>
        simp only [removeColumnLeftPressed, Except.ok.injEq] at h
        subst h
        have hperm : (componentNames (updateLayout
            ⟨{ b with items := b.items ++ a.items } :: t⟩)).Perm
            (componentNames ⟨a :: b :: t⟩) := by
          rw [componentNames_updateLayout]
          apply Multiset.coe_eq_coe.mp
          simp only [componentNames, flatNames_cons, List.map_append, ← Multiset.coe_add]
          abel
        exact ⟨hperm, fun hnd => hperm.nodup_iff.mpr hnd⟩
  · intro cur r h
    unfold removeColumnRightPressed at h
    cases hr : removeRightLists cur.lists with
    | error e => rw [hr] at h; cases h
    | ok ls2 =>
        rw [hr] at h
        simp only [Except.map, Except.ok.injEq] at h
        subst h
        have hperm : (componentNames (updateLayout { cur with lists := ls2 })).Perm
            (componentNames cur) := by
          rw [componentNames_updateLayout]
          exact Multiset.coe_eq_coe.mp (removeRightLists_names cur.lists ls2 hr)
        exact ⟨hperm, fun hnd => hperm.nodup_iff.mpr hnd⟩
  · intro cur dflt
    have heq : componentNames (resetPressed cur dflt) = componentNames dflt := by
      simp [resetPressed, createCopyLayout, getConnectedLists, componentNames,
        flatNames_map_connected]
    exact ⟨heq, fun hnd => heq ▸ hnd⟩

/-- Witness for C7: the concrete within-list drag on `curC7` and a column
addition. -/
theorem c7_no_duplication_witness :
    (componentNames resC7).Perm (componentNames curC7) ∧
    componentNames (addColumnRightPressed curC7 "g") = componentNames curC7 :=
  ⟨(c7_no_duplication.1 curC7 evC7 resC7 (by rfl)).1,
   (c7_no_duplication.2.1 curC7 "g").1⟩

/-- Helper: the names present after one successful missing-component
insertion are the old names together with the inserted component's name. -/
theorem addOneMissing_ok_names (grouped : List (String × List LayoutList))
    (ls : List LayoutList) (name : String) (ls' : List LayoutList)
    (h : addOneMissing grouped ls name = Except.ok ls') :
    ∀ x, x ∈ flatNames ls' ↔ (x = name ∨ x ∈ flatNames ls) := by
  cases h1 : findOriginContainer grouped name with
  | none => simp [addOneMissing, h1] at h
  | some cn =>
      cases h2 : lookupGroup grouped cn with
      | none => simp [addOneMissing, h1, h2] at h
      | some g =>
          cases h3 : g.head? with
          | none => simp [addOneMissing, h1, h2, h3] at h
          | some o =>
              cases h4 : findElem o.items name with
              | none => simp [addOneMissing, h1, h2, h3, h4] at h
              | some p =>
                  obtain ⟨i, e⟩ := p
                  cases h5 : findFirstItems ls cn with
                  | none => simp [addOneMissing, h1, h2, h3, h4, h5] at h
                  | some its =>
                      have hname : e.componentName = name := findElem_name _ _ i e h4
                      have hls' : setItemsOfFirst ls cn
                          (fun xs => xs.insertIdx (if its.length < i then 0 else i) e)
                          = ls' := by
                        simpa [addOneMissing, h1, h2, h3, h4, h5] using h
                      obtain ⟨pre, l0, post, he, hcn, hits, hset⟩ :=
                        findFirstItems_split ls cn its h5
                      subst he
                      rw [← hls', hset]
                      intro x
                      have hidx : (if its.length < i then 0 else i) ≤ its.length := by
                        split <;> omega
                      have hinsp :
                          ((its.insertIdx (if its.length < i then 0 else i) e).map
                            (·.componentName)).Perm
                            ((e :: its).map (·.componentName)) :=
                        (List.perm_insertIdx e its hidx).map _
                      rw [flatNames_append, flatNames_append, flatNames_cons,
                        flatNames_cons, hits]
                      simp only [List.mem_append]
                      rw [List.Perm.mem_iff hinsp]
                      simp only [List.map_cons, List.mem_cons, hname]
                      tauto

/-- Helper: folding the per-component insertion over a list of names, when it
succeeds, yields exactly the old names plus the processed names. -/
theorem foldlM_addOneMissing_names (grouped : List (String × List LayoutList)) :
    ∀ (ms : List String) (init out : List LayoutList),
      ms.foldlM (fun lists nm => addOneMissing grouped lists nm) init = Except.ok out →
      ∀ x, x ∈ flatNames out ↔ (x ∈ ms ∨ x ∈ flatNames init) := by
  intro ms
  induction ms with
  | nil =>
      intro init out h x
      simp only [List.foldlM_nil] at h
      have heq : init = out := Except.ok.inj h
      subst heq
      simp
  | cons m ms ih =>
      intro init out h x
      rw [List.foldlM_cons] at h
      cases h1 : addOneMissing grouped init m with
      | error e =>
          rw [h1] at h
          exact Except.noConfusion h
      | ok mid =>
          rw [h1] at h
          have h2 : ms.foldlM (fun lists nm => addOneMissing grouped lists nm) mid =
              Except.ok out := h
          have hmid := addOneMissing_ok_names grouped init m mid h1
          have hout := ih mid out h2
          rw [hout x, List.mem_cons]
          constructor
          · rintro (hx | hx)
            · exact Or.inl (Or.inr hx)
            · rcases (hmid x).mp hx with hx' | hx'
              · exact Or.inl (Or.inl hx')
              · exact Or.inr hx'
          · rintro ((hx | hx) | hx)
            · exact Or.inr ((hmid x).mpr (Or.inl hx))
            · exact Or.inl hx
            · exact Or.inr ((hmid x).mpr (Or.inr hx))

/-- Helper: a successful per-variant reconciliation leaves no missing
components and re-running it is a no-op. -/
theorem addMissing_idem (sv dv out : Option CustomizableLayout)
    (h : addMissingComponentsToStoredLayout sv dv = Except.ok out) :
    missingNames out dv = [] ∧
    addMissingComponentsToStoredLayout out dv = Except.ok out := by
  match sv, dv with
  | none, none =>
      have hout : out = none := by simpa [addMissingComponentsToStoredLayout] using h.symm
      subst hout
      exact ⟨rfl, rfl⟩
  | none, some d =>
      have hout : out = none := by simpa [addMissingComponentsToStoredLayout] using h.symm
      subst hout
      exact ⟨rfl, rfl⟩
  | some s, none =>
      have hout : out = some s := by simpa [addMissingComponentsToStoredLayout] using h.symm
      subst hout
      exact ⟨rfl, rfl⟩
  | some s, some d =>
      simp only [addMissingComponentsToStoredLayout] at h
      by_cases hm : (missingNames (some s) (some d)).length > 0
      · rw [if_pos hm] at h
        cases hf : (missingNames (some s) (some d)).foldlM
            (fun lists name => addOneMissing (groupByContainer d.lists) lists name)
            s.lists with
        | error e => rw [hf] at h; exact Except.noConfusion h
        | ok ls' =>
            rw [hf] at h
            simp only [Except.map, Except.ok.injEq] at h
            subst h
            have hmem := foldlM_addOneMissing_names (groupByContainer d.lists) _ _ _ hf
            have hmiss : missingNames (some { s with lists := ls' }) (some d) = [] := by
              simp only [missingNames]
              rw [List.filter_eq_nil_iff]
              intro n hn
              have hin : n ∈ flatNames ls' := by
                by_cases hc : n ∈ flatNames s.lists
                · exact (hmem n).mpr (Or.inr hc)
                · refine (hmem n).mpr (Or.inl ?_)
                  simp only [missingNames, List.mem_filter]
                  exact ⟨hn, by simpa using hc⟩
              simpa using hin
            refine ⟨hmiss, ?_⟩
            simp only [addMissingComponentsToStoredLayout, hmiss]
            simp
      · rw [if_neg hm] at h
        simp only [Except.ok.injEq] at h
        subst h
        have hmiss0 : missingNames (some s) (some d) = [] :=
          List.length_eq_zero.mp (by omega)
        refine ⟨hmiss0, ?_⟩
        simp only [addMissingComponentsToStoredLayout, hmiss0]
        simp

/-- C8: reconciliation is idempotent — a successful reconciliation of a
stored config against a default leaves nothing missing in any breakpoint
variant, and reconciling the result against the same default returns it
unchanged. -/
theorem c8_reconciliation_idempotent :
    ∀ s d s' : CustomizableLayoutConfig, reconcileConfig s d = Except.ok s' →
      (missingNames s'.mobile d.mobile = [] ∧ missingNames s'.tablet d.tablet = [] ∧
        missingNames s'.desktop d.desktop = []) ∧
      reconcileConfig s' d = Except.ok s' := by
  intro s d s' h
  unfold reconcileConfig at h
  cases hm : addMissingComponentsToStoredLayout s.mobile d.mobile with
  | error e => rw [hm] at h; exact Except.noConfusion h
  | ok m =>
      rw [hm] at h
      cases ht : addMissingComponentsToStoredLayout s.tablet d.tablet with
      | error e => rw [ht] at h; exact Except.noConfusion h
      | ok t =>
          rw [ht] at h
          cases hd : addMissingComponentsToStoredLayout s.desktop d.desktop with
          | error e => rw [hd] at h; exact Except.noConfusion h
          | ok dk =>
              rw [hd] at h
              have hs' : { s with mobile := m, tablet := t, desktop := dk } = s' :=
                Except.ok.inj h
              subst hs'
              obtain ⟨hm1, hm2⟩ := addMissing_idem s.mobile d.mobile m hm
              obtain ⟨ht1, ht2⟩ := addMissing_idem s.tablet d.tablet t ht
              obtain ⟨hd1, hd2⟩ := addMissing_idem s.desktop d.desktop dk hd
              refine ⟨⟨hm1, ht1, hd1⟩, ?_⟩
              unfold reconcileConfig
              simp [hm2, ht2, hd2]

/-- Witness for C8: reconciling `storedC8` (Mobile `A = [x]`) against
`dfltC8` (Mobile `A = [x, y]`) yields `reconC8`, whose re-reconciliation is
a no-op with an empty missing set. -/
theorem c8_reconciliation_idempotent_witness :
    missingNames reconC8.mobile dfltC8.mobile = [] ∧
    reconcileConfig reconC8 dfltC8 = Except.ok reconC8 :=
  ⟨(c8_reconciliation_idempotent storedC8 dfltC8 reconC8 (by rfl)).1.1,
   (c8_reconciliation_idempotent storedC8 dfltC8 reconC8 (by rfl)).2⟩

end SgsLayout
